import Mathlib

/-!
Verification development for the rendering core of the melted/MLT framework:
the shared object cache (src/src/framework/mlt_cache.c) and the frame
lazy-evaluation pipeline with its format conversion and audio mixing
primitives (mlt_frame.c, provided as src/unnamed/part_003).

The C code is embedded shallowly:
* pointer-keyed identities (owner addresses, data addresses) become `Nat` keys;
* the `mlt_properties` maps `active` and `garbage` become association lists;
* `double` arithmetic becomes exact `ℚ` arithmetic (noted at each use);
* byte buffers become `List Nat`, 16-bit sample buffers become `List Int`;
* destructor invocations and `cache_object_close` calls are recorded in ghost
  log fields so that lifetime claims are observable.
-/

namespace MltCache

/-- the maximum number of data objects to cache per line (`CACHE_SIZE`). -/
def CACHE_SIZE : Nat := 10

/-- Embeds `struct mlt_cache_item_s`.  The `cache` back-pointer is implicit in
the state; `object` is the owner's address key, `data` the cached data's
address key (`none` once the destructor has run and the pointer was cleared),
and `hasDestructor` records whether a destructor function pointer is present
(`destructor != NULL`). -/
structure CacheItem where
  object : Nat
  data : Option Nat
  size : Int
  refcount : Int
  hasDestructor : Bool
deriving DecidableEq, Repr

/-- Embeds `struct mlt_cache_s`.  `current` is the live prefix of the A/B
slot array (index 0 = least recently used, last = most recently used); the C
`count` field is `current.length`.  `active` maps owner address → item,
`garbage` maps displaced data address → orphaned item.  `destroyedLog` is a
ghost trace of the data values passed to a destructor, in invocation order;
`closeLog` is a ghost trace of the owner argument of each
`cache_object_close` call. -/
structure CacheState where
  current : List Nat
  active : List (Nat × CacheItem)
  garbage : List (Nat × CacheItem)
  destroyedLog : List (Option Nat)
  closeLog : List Nat
deriving DecidableEq, Repr

/-- `mlt_cache_init`: empty cache. -/
def mlt_cache_init : CacheState := ⟨[], [], [], [], []⟩

/-- Lookup in an association list (a `mlt_properties_get_data` by key). -/
def alookup : List (Nat × CacheItem) → Nat → Option CacheItem
  | [], _ => none
  | (k, v) :: t, key => if k = key then some v else alookup t key

/-- Store under a key: replace the first binding of the key, else append
(`mlt_properties_set_data` with a fresh or existing name). -/
def aset : List (Nat × CacheItem) → Nat → CacheItem → List (Nat × CacheItem)
  | [], key, v => [(key, v)]
  | (k, w) :: t, key, v => if k = key then (key, v) :: t else (k, w) :: aset t key v

/-- Drop the first binding of a key (`mlt_properties_set_data(…, key, NULL, …)`,
observationally: later lookups miss). -/
def aremove : List (Nat × CacheItem) → Nat → List (Nat × CacheItem)
  | [], _ => []
  | (k, w) :: t, key => if k = key then t else (k, w) :: aremove t key

/-- First half of `cache_object_close`: decrement-and-maybe-destroy the
active item of `object`.  The decrement is guarded by the presence of a
destructor (`item->destructor && --item->refcount <= 0` short-circuits, so an
item without a destructor keeps its refcount). -/
def closeActive (s : CacheState) (object : Nat) : CacheState :=
  match alookup s.active object with
  | some it =>
    if it.hasDestructor then
      if it.refcount - 1 ≤ 0 then
        { s with
          active := aset s.active object
            { it with refcount := it.refcount - 1, data := none, hasDestructor := false },
          destroyedLog := s.destroyedLog ++ [it.data] }
      else
        { s with active := aset s.active object { it with refcount := it.refcount - 1 } }
    else s
  | none => s

/-- Second half of `cache_object_close`: when a `data` address is supplied,
decrement-and-maybe-collect the orphaned item filed in the garbage list under
that address (same destructor guard; a collected orphan record is removed
from the garbage list). -/
def closeGarbage (s : CacheState) (data : Option Nat) : CacheState :=
  match data with
  | none => s
  | some d =>
    match alookup s.garbage d with
    | some g =>
      if g.hasDestructor then
        if g.refcount - 1 ≤ 0 then
          { s with garbage := aremove s.garbage d,
                    destroyedLog := s.destroyedLog ++ [g.data] }
        else
          { s with garbage := aset s.garbage d { g with refcount := g.refcount - 1 } }
      else s
    | none => s

/-- Embeds `cache_object_close(cache, object, data)`: the active-item phase
followed by the garbage phase, with the call recorded in the ghost
`closeLog`. -/
def cacheObjectClose (s : CacheState) (object : Nat) (data : Option Nat) : CacheState :=
  closeGarbage (closeActive { s with closeLog := s.closeLog ++ [object] } object) data

/-- Survivors of `shuffle_get_hit`'s copy into the alternate array, in order
(excluding the slot that receives the object afterwards).  On a hit the one
(topmost) matching slot is skipped; on a miss with a full cache the
least-recently-used entry (index 0) is dropped; otherwise the order is kept
whole. -/
def removeLastOcc : List Nat → Nat → List Nat
  | [], _ => []
  | h :: t, a => if a ∈ t then h :: removeLastOcc t a else if h = a then t else h :: t

/-- The contents the alternate array holds after `shuffle_get_hit`, before the
caller writes the object into the most-recently-used slot. -/
def shuffleAlt (cur : List Nat) (object : Nat) : List Nat :=
  if object ∈ cur then removeLastOcc cur object
  else if cur.length < CACHE_SIZE then cur
  else cur.drop 1

/-- Embeds `mlt_cache_put(cache, object, data, size, destructor)`. -/
def mlt_cache_put (s : CacheState) (object : Nat) (data : Option Nat) (size : Int)
    (destr : Bool) : CacheState :=
  let s1 : CacheState :=
    if object ∈ s.current then
      -- release the old data for this owner
      cacheObjectClose s object none
    else if s.current.length < CACHE_SIZE then
      s
    else
      -- release the entry at the LRU end
      match s.current with
      | [] => s
      | lru :: _ => cacheObjectClose s lru none
  let cur : List Nat := shuffleAlt s.current object ++ [object]
  let s2 : CacheState :=
    match alookup s1.active object with
    | some it =>
      -- updating the cache item while references are outstanding:
      -- copy it to the garbage collection, keyed by the old data address
      match it.data with
      | some d => if it.refcount > 0 then { s1 with garbage := aset s1.garbage d it } else s1
      | none => s1
    | none => s1
  { s2 with
    current := cur,
    active := aset s2.active object
      { object := object, data := data, size := size, refcount := 1, hasDestructor := destr } }

/-- Embeds `mlt_cache_get(cache, object)`.  The returned handle is the owner
key: the C function returns a pointer to the owner's (mutable, shared) active
item, so every later field read through the handle sees the current active
item of that owner. -/
def mlt_cache_get (s : CacheState) (object : Nat) : Option Nat × CacheState :=
  if object ∈ s.current then
    let cur : List Nat := shuffleAlt s.current object ++ [object]
    match alookup s.active object with
    | some it =>
      let it' : CacheItem := if it.data.isSome then { it with refcount := it.refcount + 1 } else it
      (some object, { s with current := cur, active := aset s.active object it' })
    | none => (none, { s with current := cur })
  else (none, s)

/-- Embeds `mlt_cache_item_data(item, size)`: the data pointer and size,
refcount untouched. -/
def mlt_cache_item_data (s : CacheState) (handle : Option Nat) : Option Nat × Int :=
  match handle with
  | none => (none, 0)
  | some h =>
    match alookup s.active h with
    | some it => (it.data, it.size)
    | none => (none, 0)

/-- Embeds `mlt_cache_item_close(item)`: reads `item->object` and
`item->data` from the (shared) item the handle points at and calls
`cache_object_close` with them. -/
def mlt_cache_item_close (s : CacheState) (handle : Option Nat) : CacheState :=
  match handle with
  | none => s
  | some h =>
    match alookup s.active h with
    | some it => cacheObjectClose s it.object it.data
    | none => s

/-- The walk over `cache->current` inside `mlt_cache_purge`: occurrences of
the purged object are closed (in traversal order), the others are compacted
into the alternate array. -/
def purgeLoop (object : Nat) : List Nat → CacheState → List Nat × CacheState
  | [], s => ([], s)
  | o :: t, s =>
    if o = object then purgeLoop object t (cacheObjectClose s o none)
    else
      let r := purgeLoop object t s
      (o :: r.1, r.2)

/-- The phase of `mlt_cache_purge` that removes the object's data from the
active list regardless of refcount: the destructor is invoked, the item record
dropped from the map. -/
def purgeActivePhase (s : CacheState) (object : Nat) : CacheState :=
  match alookup s.active object with
  | some it =>
    if it.hasDestructor then
      { s with active := aremove s.active object,
               destroyedLog := s.destroyedLog ++ [it.data] }
    else s
  | none => s

/-- The phase of `mlt_cache_purge` that removes the object's items from the
garbage collection regardless of refcount.  The C loop runs from the last
entry backwards, hence the reversal of the removed entries in the ghost
log. -/
def purgeGarbagePhase (s : CacheState) (object : Nat) : CacheState :=
  let doomed := s.garbage.filter fun kv => kv.2.object = object ∧ kv.2.hasDestructor
  { s with
    garbage := s.garbage.filter fun kv => ¬(kv.2.object = object ∧ kv.2.hasDestructor),
    destroyedLog := s.destroyedLog ++ (doomed.reverse.map fun kv => kv.2.data) }

/-- Embeds `mlt_cache_purge(cache, object)` (the `object != NULL` guard is
kept as `object ≠ 0`, key 0 playing the null pointer): close-and-compact the
LRU ordering, then force-destroy the active entry and the orphaned entries
tagged with the object. -/
def mlt_cache_purge (s : CacheState) (object : Nat) : CacheState :=
  if object = 0 then s
  else
    let r := purgeLoop object s.current s
    purgeGarbagePhase (purgeActivePhase { r.2 with current := r.1 } object) object

/-- One `mlt_cache_put` request: owner key, data key, size, and whether a
destructor is supplied. -/
structure PutReq where
  object : Nat
  data : Option Nat
  size : Int
  destr : Bool
deriving DecidableEq, Repr

/-- A sequence of `mlt_cache_put` calls applied in order. -/
def applyPuts (s : CacheState) (ops : List PutReq) : CacheState :=
  ops.foldl (fun t r => mlt_cache_put t r.object r.data r.size r.destr) s

end MltCache

namespace MltFrame

/-- Truncation of a `double` to an integer type in C: rounding toward zero. -/
def ratTrunc (q : ℚ) : Int := if q < 0 then ⌈q⌉ else ⌊q⌋

/-- Conversion of an integer value to `int16_t` (two's-complement wrap; for
values already in the representable range this is the identity, which is the
only case the C standard defines for a `double` source). -/
def wrap16 (x : Int) : Int := (x + 32768) % 65536 - 32768

/-- `mlt_image_format` enumerators from mlt_types.h. -/
def mlt_image_none : Int := 0

/-- `mlt_image_rgb24`. -/
def mlt_image_rgb24 : Int := 1

/-- `mlt_image_rgb24a`. -/
def mlt_image_rgb24a : Int := 2

/-- `mlt_image_yuv422`. -/
def mlt_image_yuv422 : Int := 3

/-- `mlt_image_yuv420p`. -/
def mlt_image_yuv420p : Int := 4

/-- `mlt_image_opengl`. -/
def mlt_image_opengl : Int := 5

/-- What a deferred `mlt_get_image` callback popped from the image stack does
when invoked.  Callbacks are external collaborators, so they are abstracted by
their effect on the out-parameters and on the frame: the buffer/format/width/
height they report back, whether they store the buffer in the frame's
`"image"` data property (the usual producer/filter contract, but nothing in
`mlt_frame_get_image` itself does it), and a position they may leave the
frame at. -/
structure StepEffect where
  error : Int
  buffer : Option (List Nat)
  fmt : Int
  width : Int
  height : Int
  setImageProp : Bool
  newPosition : Option Int

/-- A deferred image step: a function of the requested format, width, height
and writable flag. -/
def GetImageStep : Type := Int → Int → Int → Int → StepEffect

/-- Effect of a deferred `mlt_get_audio` callback, analogously. -/
structure AudioStepEffect where
  buffer : Option (List Int)
  fmt : Int
  frequency : Int
  channels : Int
  samples : Int
  setAudioProp : Bool
  newPosition : Option Int

/-- A deferred audio step: a function of the requested format, frequency,
channels and sample count. -/
def GetAudioStep : Type := Int → Int → Int → Int → AudioStepEffect

/-- Embeds `struct mlt_frame_s` together with the properties
`mlt_frame_get_image`/`mlt_frame_get_audio`/`mlt_frame_resize_yuv422` read
and write on `MLT_FRAME_PROPERTIES`.  `testCardProducer` abstracts the
`"test_card_producer"` collaborator by the outcome of asking it for a frame
and resolving that frame's image: `none` = no producer; `some none` =
producer present but `mlt_service_get_frame` yields no frame; `some (some r)`
= the rendered test frame resolves to buffer/format/width/height/aspect `r`.
`alphaGen` abstracts the `get_alpha_mask` virtual by the mask it returns.
`invokeCount` is a ghost counter of deferred image steps actually invoked. -/
structure Frame where
  position : Int
  image : Option (List Nat)
  width : Int
  height : Int
  fmt : Int
  aspect : ℚ
  scaledWidth : Int
  scaledHeight : Int
  testImage : Bool
  imageCount : Int
  stackImage : List GetImageStep
  testCardProducer : Option (Option (List Nat × Int × Int × Int × ℚ))
  alphaMask : Option (List Nat)
  alphaGen : Option (List Nat)
  resizeAlpha : Nat
  sound : Option (List Int)
  soundFrequency : Int
  soundChannels : Int
  soundSamples : Int
  testAudioFlag : Bool
  stackAudio : List GetAudioStep
  metaVolume : Option ℚ
  invokeCount : Nat

/-- `mlt_frame_get_position`: the `"_position"` property clamped below at 0. -/
def mlt_frame_get_position (f : Frame) : Int := if f.position < 0 then 0 else f.position

/-- Result record of `mlt_frame_get_image` (error code, out-parameters, and
the frame after the call). -/
structure GIResult where
  error : Int
  buffer : Option (List Nat)
  fmt : Int
  width : Int
  height : Int
  frame : Frame

/-- The yuv422 test pattern written by the fallback branch of
`mlt_frame_get_image`: `size` bytes of alternating luma 235 / chroma 128. -/
def yuvFill (halfSize : Nat) : List Nat := (List.replicate halfSize [235, 128]).flatten

/-- The final branch of `mlt_frame_get_image` (no step, no stored image, no
usable test-card producer): synthesize a placeholder buffer sized to the
request, store it as the resolved image and raise `"test_image"`. -/
def placeholderImage (f : Frame) (fmt width height : Int) : GIResult :=
  let w : Int := if width = 0 then 720 else width
  let h : Int := if height = 0 then 576 else height
  let area : Nat := (w * h).toNat
  let wn : Nat := w.toNat
  let buf : Option (List Nat) :=
    if fmt = mlt_image_none then none
    else if fmt = mlt_image_rgb24 then some (List.replicate (area * 3 + wn * 3) 255)
    else if fmt = mlt_image_rgb24a ∨ fmt = mlt_image_opengl then
      some (List.replicate (area * 4 + wn * 4) 255)
    else if fmt = mlt_image_yuv422 then some (yuvFill (area + wn))
    else if fmt = mlt_image_yuv420p then some (List.replicate (area * 3 / 2) 255)
    else none
  { error := 0, buffer := buf, fmt := fmt, width := w, height := h,
    frame := { f with fmt := fmt, width := w, height := h, aspect := 0,
                      image := buf, testImage := true,
                      scaledWidth := w, scaledHeight := h } }

/-- Embeds `mlt_frame_get_image(this, buffer, format, width, height,
writable)`.  The C code first pops the image stack; if a deferred step came
off it is invoked between reading and re-writing `"_position"`; otherwise a
previously resolved `"image"` property is returned; otherwise the test-card
producer is consulted (a producer that yields no frame is cleared and the
call re-runs, which by then can only reach the placeholder branch — the
recursion is inlined here); otherwise a placeholder is synthesized.
`"scaled_width"`/`"scaled_height"` are updated on every path. -/
def mlt_frame_get_image (f : Frame) (fmt width height writable : Int) : GIResult :=
  match f.stackImage with
  | step :: rest =>
    let saved : Int := mlt_frame_get_position f
    let eff : StepEffect := step fmt width height writable
    let f1 : Frame :=
      { f with stackImage := rest,
               imageCount := f.imageCount - 1,
               invokeCount := f.invokeCount + 1,
               image := if eff.setImageProp then eff.buffer else f.image,
               position := (eff.newPosition.getD f.position) }
    let f2 : Frame :=
      { f1 with width := eff.width, height := eff.height, fmt := eff.fmt,
                position := saved,
                scaledWidth := eff.width, scaledHeight := eff.height }
    { error := eff.error, buffer := eff.buffer, fmt := eff.fmt,
      width := eff.width, height := eff.height, frame := f2 }
  | [] =>
    match f.image with
    | some img =>
      { error := 0, buffer := some img, fmt := f.fmt, width := f.width, height := f.height,
        frame := { f with scaledWidth := f.width, scaledHeight := f.height } }
    | none =>
      match f.testCardProducer with
      | some (some r) =>
        let (tbuf, tfmt, tw, th, tar) := r
        { error := 0, buffer := some tbuf, fmt := tfmt, width := tw, height := th,
          frame := { f with image := some tbuf, width := tw, height := th, fmt := tfmt,
                            aspect := tar, scaledWidth := tw, scaledHeight := th } }
      | some none => placeholderImage { f with testCardProducer := none } fmt width height
      | none => placeholderImage f fmt width height

end MltFrame

namespace MltFrame

/-- Result record of `mlt_frame_get_audio`. -/
structure GAResult where
  buffer : Option (List Int)
  fmt : Int
  frequency : Int
  channels : Int
  samples : Int
  frame : Frame

/-- The `"meta.volume"` post-processing at the end of `mlt_frame_get_audio`:
mute zero-fills, a non-unit scalar multiplies every sample (`*p = *p * value`,
a `double` product truncated back into the `int16_t` sample). -/
def applyVolume (v : ℚ) (total : Nat) (buf : List Int) : List Int :=
  if v = 0 then List.replicate buf.length 0
  else if v ≠ 1 then
    buf.mapIdx fun k (x : Int) => if k < total then wrap16 (ratTrunc ((x : ℚ) * v)) else x
  else buf

/-- The fallback chain of `mlt_frame_get_audio` when no deferred step is
invoked: return the stored `"audio"` property if present, else synthesize
silence sized by the defaults (48000 Hz, 2 channels, 1920 samples), store it
and raise `"test_audio"`. -/
def storedOrSilence (f0 : Frame) (fmt frequency channels samples : Int) : GAResult :=
  match f0.sound with
  | some buf =>
    { buffer := some buf, fmt := fmt, frequency := f0.soundFrequency,
      channels := f0.soundChannels, samples := f0.soundSamples, frame := f0 }
  | none =>
    let ns : Int := if samples ≤ 0 then 1920 else samples
    let ch : Int := if channels ≤ 0 then 2 else channels
    let fr : Int := if frequency ≤ 0 then 48000 else frequency
    let buf : List Int := List.replicate (ns * ch).toNat 0
    { buffer := some buf, fmt := fmt, frequency := fr, channels := ch, samples := ns,
      frame := { f0 with sound := some buf, testAudioFlag := true } }

/-- The epilogue of `mlt_frame_get_audio`: write the resolved frequency,
channel and sample counts back into the properties, then apply and clear a
pending `"meta.volume"` scalar.  (The C buffer aliases the `"audio"` property
on the non-step paths; the model scales the stored property exactly when it
is the returned buffer.) -/
def audioEpilogue (r : GAResult) : GAResult :=
  let f2 : Frame :=
    { r.frame with soundFrequency := r.frequency, soundChannels := r.channels,
                   soundSamples := r.samples }
  match f2.metaVolume with
  | some v =>
    let total : Nat := (r.samples * r.channels).toNat
    let scaled : Option (List Int) := r.buffer.map (applyVolume v total)
    let f3 : Frame :=
      { f2 with metaVolume := none,
                sound := if f2.sound = r.buffer then scaled else f2.sound }
    { r with buffer := scaled, frame := f3 }
  | none => { r with frame := f2 }

/-- Embeds `mlt_frame_get_audio(this, buffer, format, frequency, channels,
samples)`.  The audio stack is popped unconditionally; the popped step is
invoked only when `"test_audio"` is clear, between reading and re-writing
`"_position"`.  Otherwise the stored-audio/silence fallback runs, and the
epilogue updates the resolved properties and applies `"meta.volume"`. -/
def mlt_frame_get_audio (f : Frame) (fmt frequency channels samples : Int) : GAResult :=
  let popped : Option GetAudioStep × List GetAudioStep :=
    match f.stackAudio with
    | [] => (none, [])
    | s :: t => (some s, t)
  let f0 : Frame := { f with stackAudio := popped.2 }
  let r : GAResult :=
    match popped.1 with
    | some step =>
      if f.testAudioFlag = false then
        let saved : Int := mlt_frame_get_position f0
        let eff : AudioStepEffect := step fmt frequency channels samples
        let f1 : Frame :=
          { f0 with sound := if eff.setAudioProp then eff.buffer else f0.sound,
                    position := (eff.newPosition.getD f0.position) }
        { buffer := eff.buffer, fmt := eff.fmt, frequency := eff.frequency,
          channels := eff.channels, samples := eff.samples,
          frame := { f1 with position := saved } }
      else storedOrSilence f0 fmt frequency channels samples
    | none => storedOrSilence f0 fmt frequency channels samples
  audioEpilogue r

end MltFrame

namespace MltFrame

/-- Write a run of bytes into a buffer at a (possibly negative) byte offset.
Writes that fall outside the destination are dropped; the C original would
touch memory out of bounds there (undefined behaviour), and no theorem below
exercises that case. -/
def writeBytes (dst : List Nat) (off : Int) (src : List Nat) : List Nat :=
  dst.mapIdx fun k (b : Nat) =>
    if off ≤ (k : Int) ∧ (k : Int) < off + src.length then
      src.getD ((k : Int) - off).toNat b
    else b

/-- The neutral yuv422 fill of `mlt_resize_yuv422`: byte pairs of luma 16,
chroma 128. -/
def yuvNeutral (halfSize : Nat) : List Nat := (List.replicate halfSize [16, 128]).flatten

/-- Embeds `mlt_resize_yuv422(output, owidth, oheight, input, iwidth,
iheight)`.  Returns the output buffer after the call (the C function works in
place and returns `void`).  The guard checks `oheight` twice and never checks
`iheight`, exactly as in the source. -/
def mlt_resize_yuv422 (output : Option (List Nat)) (owidth oheight : Int)
    (input : Option (List Nat)) (iwidth iheight : Int) : Option (List Nat) :=
  match output, input with
  | some out, some inp =>
    if owidth ≤ 6 ∨ oheight ≤ 6 ∨ iwidth ≤ 6 ∨ oheight ≤ 6 then some out
    else if iwidth = owidth ∧ iheight = oheight then
      some (writeBytes out 0 (inp.take (iheight * iwidth * 2).toNat))
    else
      let istride : Int := iwidth * 2
      let ostride : Int := owidth * 2
      let offX : Int := (owidth - iwidth) - Int.tmod (owidth - iwidth) 4
      let offY : Int := Int.tdiv (oheight - iheight) 2
      let filled : List Nat := writeBytes out 0 (yuvNeutral (owidth * oheight).toNat)
      some ((List.range iheight.toNat).foldl
        (fun acc (r : Nat) =>
          writeBytes acc (offY * ostride + offX + (r : Int) * ostride)
            ((inp.drop ((r : Int) * istride).toNat).take (iwidth * 2).toNat))
        filled)
  | _, _ => output

/-- Embeds `mlt_resize_alpha(input, owidth, oheight, iwidth, iheight,
alpha_value)`: returns `none` (C: `NULL`) unless the input exists, the
dimensions actually change and both output dimensions exceed 6. -/
def mlt_resize_alpha (input : Option (List Nat)) (owidth oheight iwidth iheight : Int)
    (alphaValue : Nat) : Option (List Nat) :=
  match input with
  | none => none
  | some inp =>
    if (iwidth ≠ owidth ∨ iheight ≠ oheight) ∧ (owidth > 6 ∧ oheight > 6) then
      let offX : Int :=
        Int.tdiv (owidth - iwidth) 2 - Int.tmod (Int.tdiv (owidth - iwidth) 2) 2
      let offY : Int := Int.tdiv (oheight - iheight) 2
      let base : List Nat := List.replicate (owidth * oheight).toNat alphaValue
      some ((List.range iheight.toNat).foldl
        (fun acc (r : Nat) =>
          writeBytes acc (offY * owidth + offX + (r : Int) * owidth)
            ((inp.drop ((r : Int) * iwidth).toNat).take iwidth.toNat))
        base)
    else none

/-- Embeds `mlt_frame_get_alpha_mask(this)`: the custom generator's mask, else
the stored `"alpha"` property, else a freshly allocated fully opaque mask
sized to the last resolved image (which is then stored). -/
def mlt_frame_get_alpha_mask (f : Frame) : List Nat × Frame :=
  let viaGen : Option (List Nat) :=
    match f.alphaGen with
    | some a => some a
    | none => f.alphaMask
  match viaGen with
  | some a => (a, f)
  | none =>
    let m : List Nat := List.replicate (f.scaledWidth * f.scaledHeight).toNat 255
    (m, { f with alphaMask := some m })

/-- Embeds `mlt_frame_resize_yuv422(this, owidth, oheight)`.  When the
dimensions differ a fresh pool buffer of `owidth * (oheight + 1) * 2` bytes is
allocated (its contents are indeterminate in C; zeros stand in here), resized
into, installed as the frame's `"image"` with the new width/height, and
returned — even when `mlt_resize_yuv422` declined to write anything into it.
Only when the dimensions already match is the input image returned. -/
def mlt_frame_resize_yuv422 (f : Frame) (owidth oheight : Int) : Option (List Nat) × Frame :=
  let input : Option (List Nat) := f.image
  let am := mlt_frame_get_alpha_mask f
  let f0 : Frame := am.2
  let iwidth : Int := f0.width
  let iheight : Int := f0.height
  if iwidth ≠ owidth ∨ iheight ≠ oheight then
    let output : List Nat := List.replicate (owidth * (oheight + 1) * 2).toNat 0
    let res : Option (List Nat) := mlt_resize_yuv422 (some output) owidth oheight input iwidth iheight
    let f1 : Frame := { f0 with image := res, width := owidth, height := oheight }
    let resAlpha : Option (List Nat) :=
      mlt_resize_alpha (some am.1) owidth oheight iwidth iheight f0.resizeAlpha
    match resAlpha with
    | some a => (res, { f1 with alphaMask := some a, alphaGen := none })
    | none => (res, f1)
  else (input, f0)

end MltFrame

namespace MltFrame

/-- Result record shared by the two audio blending functions: the values left
in `*samples`, `*channels`, `*frequency` and `*buffer`. -/
structure MixResult where
  samples : Int
  channels : Int
  frequency : Int
  buffer : List Int
deriving DecidableEq, Repr

/-- The `memset(buf, 0, samples * channels * sizeof(int16_t))` applied when a
frame carries the `"silent_audio"` flag. -/
def silenceFill (samples channels : Int) (buf : List Int) : List Int :=
  buf.mapIdx fun k (x : Int) => if k < (samples * channels).toNat then 0 else x

/-- The mixdown loop of `mlt_frame_mix_audio`: sample `i`, channel `j` of the
destination becomes `s * weight + d * (1 - weight)` with
`weight = weight_start + i * (weight_end - weight_start) / samples` (the C
code accumulates `weight += weight_step`, which over exact rationals is the
same value), truncated back into the `int16_t` cell.  Cells outside the mixed
region are untouched. -/
def mlt_frame_mix_audio_loop (dest src : List Int) (cd cs n ch : Nat) (ws we : ℚ) : List Int :=
  (List.range dest.length).map fun k =>
    let i : Nat := k / cd
    let j : Nat := k % cd
    if i < n ∧ j < ch then
      let d : Int := dest.getD k 0
      let s : Int := src.getD (i * cs + j) 0
      let w : ℚ := ws + (i : ℚ) * ((we - ws) / (n : ℚ))
      wrap16 (ratTrunc ((s : ℚ) * w + (d : ℚ) * (1 - w)))
    else dest.getD k 0

/-- Embeds the buffer-level behaviour of `mlt_frame_mix_audio(this, that,
weight_start, weight_end, buffer, format, frequency, channels, samples)`
after the two `mlt_frame_get_audio` fetches: the `"silent_audio"` zero
fills, the defensive bounds (more than 6 channels or more than 4000 samples
are treated as 0), the `src == dest` short-circuit (`srcIsDest`), and the
ramped mixdown into the destination buffer. -/
def mlt_frame_mix_audio (dest src : List Int) (frequencyDest frequencySrc : Int)
    (channelsDest channelsSrc samplesDest samplesSrc : Int) (ws we : ℚ)
    (silentDest silentSrc srcIsDest : Bool) : MixResult :=
  let dest0 : List Int := if silentDest then silenceFill samplesDest channelsDest dest else dest
  let src0 : List Int := if silentSrc then silenceFill samplesSrc channelsSrc src else src
  let cs : Int := if channelsSrc > 6 then 0 else channelsSrc
  let cd : Int := if channelsDest > 6 then 0 else channelsDest
  let ns : Int := if samplesSrc > 4000 then 0 else samplesSrc
  let nd : Int := if samplesDest > 4000 then 0 else samplesDest
  if srcIsDest then
    { samples := ns, channels := cs, frequency := frequencySrc, buffer := src0 }
  else
    { samples := min ns nd, channels := min cs cd, frequency := frequencyDest,
      buffer := mlt_frame_mix_audio_loop dest0 src0 cd.toNat cs.toNat
        (min ns nd).toNat (min cs cd).toNat ws we }

/-- The additive sum `b_weight * dest[i * channels_dest + j] +
src[i * channels_src + j]` computed by `mlt_frame_combine_audio`. -/
def combine_sum (b_weight : ℚ) (d s : Int) : ℚ := b_weight * (d : ℚ) + (s : ℚ)

/-- The clamp `v < -32767 ? -32767 : v > 32768 ? 32768 : v` applied by
`mlt_frame_combine_audio` to the additive sum before filtering. -/
def combine_clamp (v : ℚ) : ℚ := if v < -32767 then -32767 else if v > 32768 then 32768 else v

/-- One channel-sample step of `mlt_frame_combine_audio`: the clamped sum fed
through the one-pole low-pass `v * A + vp[j] * B` and truncated into the
`int16_t` cell (the new `vp[j]` is that stored value). -/
def combineChannelStep (A B b_weight : ℚ) (d s : Int) (vpj : ℚ) : Int :=
  wrap16 (ratTrunc (combine_clamp (combine_sum b_weight d s) * A + vpj * B))

/-- The filtering loop of `mlt_frame_combine_audio` over the mixed region,
threading the per-channel filter state `vp` (initialised from the first
destination sample of each channel).  Each destination cell is written once,
at its own `(i, j)`, so reading the accumulated list reproduces the in-place
C loop. -/
def mlt_frame_combine_audio_loop (dest src : List Int) (cd cs n ch : Nat)
    (A B b_weight : ℚ) : List Int :=
  let vp0 : List ℚ := (List.range ch).map fun j => ((dest.getD j 0 : Int) : ℚ)
  ((List.range n).foldl
    (fun acc i =>
      (List.range ch).foldl
        (fun (acc2 : List Int × List ℚ) j =>
          let d : Int := acc2.1.getD (i * cd + j) 0
          let s : Int := src.getD (i * cs + j) 0
          let out : Int := combineChannelStep A B b_weight d s (acc2.2.getD j 0)
          (acc2.1.set (i * cd + j) out, acc2.2.set j (out : ℚ)))
        acc)
    (dest, vp0)).1

/-- Embeds the buffer-level behaviour of `mlt_frame_combine_audio` after the
two `mlt_frame_get_audio` fetches.  `b_weight` is 1 unless `"meta.mixdown"`
is set (then `1 - "meta.volume"`); the filter coefficients are
`B = exp(-2 * pi * 0.5)` and `A = 1 - B` in the source — transcendental, so
they are parameters here.  Unlike `mlt_frame_mix_audio` there is no defensive
bound on channel or sample counts. -/
def mlt_frame_combine_audio (dest src : List Int) (frequencyDest frequencySrc : Int)
    (channelsDest channelsSrc samplesDest samplesSrc : Int) (A B b_weight : ℚ)
    (silentDest silentSrc srcIsDest : Bool) : MixResult :=
  let dest0 : List Int := if silentDest then silenceFill samplesDest channelsDest dest else dest
  let src0 : List Int := if silentSrc then silenceFill samplesSrc channelsSrc src else src
  if srcIsDest then
    { samples := samplesSrc, channels := channelsSrc, frequency := frequencySrc, buffer := src0 }
  else
    { samples := min samplesSrc samplesDest, channels := min channelsSrc channelsDest,
      frequency := frequencyDest,
      buffer := mlt_frame_combine_audio_loop dest0 src0 channelsDest.toNat channelsSrc.toNat
        (min samplesSrc samplesDest).toNat (min channelsSrc channelsDest).toNat A B b_weight }

/-- Embeds `mlt_sample_calculator(fps, frequency, position)`.  The `float`
rate is carried as an exact rational; the guard `(int)(fps * 100) == 2997`
truncates a positive value, i.e. takes the floor (at the argument 29.97 the
`float` computation also yields exactly 2997).  `%` and `/` on C integers
truncate toward zero (`Int.tmod` / `Int.tdiv`). -/
def mlt_sample_calculator (fps : ℚ) (frequency : Int) (position : Int) : Int :=
  if ⌊fps * 100⌋ = 2997 then
    let samples : Int := Int.tdiv frequency 30
    if frequency = 48000 then
      if Int.tmod position 5 ≠ 0 then samples + 2 else samples
    else if frequency = 44100 then
      if Int.tmod position 300 = 0 then 1471
      else if Int.tmod position 30 = 0 then 1470
      else if Int.tmod position 2 = 0 then 1472
      else 1471
    else if frequency = 32000 then
      if Int.tmod position 30 = 0 then 1068
      else if Int.tmod position 29 = 0 then 1067
      else if Int.tmod position 4 = 2 then 1067
      else 1068
    else 0
  else if fps ≠ 0 then ratTrunc ((frequency : ℚ) / fps) else 0

/-- Embeds `mlt_sample_calculator_to_now(fps, frequency, frame)`: cumulative
samples up to a frame index (the companion used to detect drift). -/
def mlt_sample_calculator_to_now (fps : ℚ) (frequency : Int) (frame : Int) : Int :=
  if ⌊fps * 100⌋ = 2997 then
    let samples : Int := ratTrunc (((frame * frequency : Int) : ℚ) / 30)
    if frequency = 48000 then samples + 2 * Int.tdiv frame 5
    else if frequency = 44100 then
      samples + frame + Int.tdiv frame 2 - Int.tdiv frame 30 + Int.tdiv frame 300
    else if frequency = 32000 then
      samples + 2 * frame - Int.tdiv frame 4 - Int.tdiv frame 29
    else samples
  else if fps ≠ 0 then Int.tdiv (frame * frequency) (ratTrunc fps) else 0

/-- The NTSC frame rate 29.97 as the exact rational the claims fix. -/
def ntscFps : ℚ := 2997 / 100

/-- The sum of `mlt_sample_calculator` at 29.97 fps / 44100 Hz over the 300
consecutive positions starting at `p`. -/
def ntscWindowSum (p : Nat) : Int :=
  ((List.range 300).map fun i : Nat =>
    mlt_sample_calculator ntscFps 44100 ((p : Int) + (i : Int))).sum

/-- The 44100 Hz NTSC branch of `mlt_sample_calculator` specialised to
nonnegative positions, where the C truncating `%` agrees with `Nat.mod`; a
reasoning aid for the window-sum theorems. -/
def ntscTable (n : Nat) : Int :=
  if n % 300 = 0 then 1471 else if n % 30 = 0 then 1470 else if n % 2 = 0 then 1472 else 1471

end MltFrame

namespace MltCases

open MltCache MltFrame

/-- Step 1 of the orphan scenario: `put(owner, dataA)` on a fresh cache
(owner key 1, dataA key 100, destructor supplied). -/
def c1afterPutA : CacheState := mlt_cache_put mlt_cache_init 1 (some 100) 0 true

/-- Step 2: `get(owner)` — the handle and the state with refcount 2. -/
def c1got : Option Nat × CacheState := mlt_cache_get c1afterPutA 1

/-- Step 3: `put(owner, dataB)` (dataB key 200) over the outstanding get. -/
def c1afterPutB : CacheState := mlt_cache_put c1got.2 1 (some 200) 0 true

/-- Step 4: `item_close` on the handle obtained in step 2. -/
def c1afterClose : CacheState := mlt_cache_item_close c1afterPutB c1got.1

/-- A plain frame fixture (720 × 576, empty stacks, nothing resolved). -/
def baseFrame : Frame :=
  { position := 0, image := none, width := 720, height := 576,
    fmt := mlt_image_yuv422, aspect := 1, scaledWidth := 720, scaledHeight := 576,
    testImage := false, imageCount := 0, stackImage := [], testCardProducer := none,
    alphaMask := none, alphaGen := none, resizeAlpha := 0,
    sound := none, soundFrequency := 0, soundChannels := 0, soundSamples := 0,
    testAudioFlag := false, stackAudio := [], metaVolume := none, invokeCount := 0 }

/-- A deferred image step that reports a three-byte buffer but does not store
it in the frame's `"image"` property — `mlt_frame_get_image` itself never
stores the buffer a step produces. -/
def c3Step : GetImageStep := fun _ _ _ _ =>
  { error := 0, buffer := some [1, 2, 3], fmt := mlt_image_yuv422, width := 2, height := 2,
    setImageProp := false, newPosition := none }

/-- A frame whose image stack holds exactly the non-storing step. -/
def c3Frame : Frame := { baseFrame with stackImage := [c3Step] }

/-- First resolve of `c3Frame` at 2 × 2 yuv422. -/
def c3First : GIResult := mlt_frame_get_image c3Frame mlt_image_yuv422 2 2 0

/-- Second resolve with identical requested parameters. -/
def c3Second : GIResult := mlt_frame_get_image c3First.frame mlt_image_yuv422 2 2 0

/-- A deferred image step that does store its buffer in the `"image"`
property, the usual producer contract. -/
def c3wStep : GetImageStep := fun _ _ _ _ =>
  { error := 0, buffer := some [9, 8], fmt := mlt_image_yuv422, width := 1, height := 1,
    setImageProp := true, newPosition := none }

/-- A frame whose image stack holds exactly the storing step. -/
def c3wFrame : Frame := { baseFrame with stackImage := [c3wStep] }

/-- A frame carrying a resolved 10 × 10 yuv422 image of 220 bytes of value 7. -/
def c6Frame : Frame :=
  { baseFrame with image := some (List.replicate 220 7), width := 10, height := 10,
                   scaledWidth := 10, scaledHeight := 10 }

/-- Ten `put` calls with distinct owners 1..10, filling a fresh cache. -/
def c4ops : List PutReq :=
  [⟨1, some 101, 0, true⟩, ⟨2, some 102, 0, true⟩, ⟨3, some 103, 0, true⟩,
   ⟨4, some 104, 0, true⟩, ⟨5, some 105, 0, true⟩, ⟨6, some 106, 0, true⟩,
   ⟨7, some 107, 0, true⟩, ⟨8, some 108, 0, true⟩, ⟨9, some 109, 0, true⟩,
   ⟨10, some 110, 0, true⟩]

/-- A cache holding owner 1 with an active item at refcount 3 and an orphaned
item (old data 150) at refcount 2, both with destructors. -/
def c7State : CacheState :=
  { current := [1],
    active := [(1, { object := 1, data := some 100, size := 0, refcount := 3,
                     hasDestructor := true })],
    garbage := [(150, { object := 1, data := some 150, size := 0, refcount := 2,
                        hasDestructor := true })],
    destroyedLog := [], closeLog := [] }

/-- A cache whose active and orphaned items for owner 1 both lack a
destructor. -/
def c10State : CacheState :=
  { current := [1],
    active := [(1, { object := 1, data := some 100, size := 0, refcount := 2,
                     hasDestructor := false })],
    garbage := [(300, { object := 1, data := some 300, size := 0, refcount := 1,
                        hasDestructor := false })],
    destroyedLog := [], closeLog := [] }

end MltCases

namespace MltCache

theorem alookup_aset_self (l : List (Nat × CacheItem)) (k : Nat) (v : CacheItem) :
    alookup (aset l k v) k = some v := by
  induction l with
  | nil => simp [aset, alookup]
  | cons h t ih =>
    obtain ⟨k', w⟩ := h
    by_cases hk : k' = k
    · simp [aset, hk, alookup]
    · simp [aset, hk, alookup, ih]

theorem alookup_aset_ne (l : List (Nat × CacheItem)) (k k' : Nat) (v : CacheItem)
    (h : k' ≠ k) : alookup (aset l k' v) k = alookup l k := by
  induction l with
  | nil => simp [aset, alookup, h]
  | cons hd t ih =>
    obtain ⟨k0, w⟩ := hd
    by_cases hk : k0 = k'
    · simp [aset, hk, alookup, h]
    · simp only [aset, hk, if_false]
      simp [alookup, ih]

theorem alookup_mem (l : List (Nat × CacheItem)) (k : Nat) (v : CacheItem)
    (h : alookup l k = some v) : (k, v) ∈ l := by
  induction l with
  | nil => simp [alookup] at h
  | cons hd t ih =>
    obtain ⟨k0, w⟩ := hd
    by_cases hk : k0 = k
    · subst hk
      simp [alookup] at h
      simp [h]
    · simp [alookup, hk] at h
      simp [ih h]

theorem removeLastOcc_sublist (l : List Nat) (a : Nat) : (removeLastOcc l a).Sublist l := by
  induction l with
  | nil => simp [removeLastOcc]
  | cons h t ih =>
    by_cases hm : a ∈ t
    · simpa [removeLastOcc, hm] using ih.cons₂ h
    · by_cases he : h = a
      · simp [removeLastOcc, hm, he]
      · simp [removeLastOcc, hm, he]

theorem removeLastOcc_length (l : List Nat) (a : Nat) (h : a ∈ l) :
    (removeLastOcc l a).length + 1 = l.length := by
  induction l with
  | nil => simp at h
  | cons hd t ih =>
    by_cases hm : a ∈ t
    · simp [removeLastOcc, hm, ih hm]
    · have hh : hd = a := by
        rcases List.mem_cons.mp h with h1 | h2
        · exact h1.symm
        · exact absurd h2 hm
      simp [removeLastOcc, hm, hh]

theorem removeLastOcc_not_mem (l : List Nat) (a : Nat) (hnd : l.Nodup) :
    a ∉ removeLastOcc l a := by
  induction l with
  | nil => simp [removeLastOcc]
  | cons hd t ih =>
    rw [List.nodup_cons] at hnd
    by_cases hm : a ∈ t
    · have hha : hd ≠ a := fun he => hnd.1 (he ▸ hm)
      simp only [removeLastOcc, if_pos hm, List.mem_cons, not_or]
      exact ⟨fun he => hha he.symm, ih hnd.2⟩
    · by_cases he : hd = a
      · simp only [removeLastOcc, if_neg hm, if_pos he]
        exact hm
      · simp only [removeLastOcc, if_neg hm, if_neg he, List.mem_cons, not_or]
        exact ⟨fun hc => he hc.symm, hm⟩

theorem removeLastOcc_nodup (l : List Nat) (a : Nat) (hnd : l.Nodup) :
    (removeLastOcc l a).Nodup := hnd.sublist (removeLastOcc_sublist l a)

theorem put_current (s : CacheState) (o : Nat) (d : Option Nat) (sz : Int) (dt : Bool) :
    (mlt_cache_put s o d sz dt).current = shuffleAlt s.current o ++ [o] := rfl

theorem shuffleAlt_nodup (cur : List Nat) (o : Nat) (h : cur.Nodup) :
    (shuffleAlt cur o ++ [o]).Nodup := by
  unfold shuffleAlt
  split_ifs with h1 h2
  · refine List.Nodup.append (removeLastOcc_nodup cur o h) (by simp) ?_
    intro x hx hy
    simp at hy
    subst hy
    exact removeLastOcc_not_mem cur _ h hx
  · refine List.Nodup.append h (by simp) ?_
    intro x hx hy
    simp at hy
    subst hy
    exact h1 hx
  · refine List.Nodup.append (h.sublist (List.drop_sublist 1 cur)) (by simp) ?_
    intro x hx hy
    simp at hy
    subst hy
    exact h1 ((List.drop_sublist 1 cur).mem hx)

theorem shuffleAlt_length (cur : List Nat) (o : Nat) (hlen : cur.length ≤ 10) :
    (shuffleAlt cur o ++ [o]).length ≤ 10 := by
  unfold shuffleAlt
  split_ifs with h1 h2
  · have := removeLastOcc_length cur o h1
    simp only [List.length_append, List.length_cons, List.length_nil]
    omega
  · simp only [CACHE_SIZE] at h2
    simp only [List.length_append, List.length_cons, List.length_nil]
    omega
  · simp only [List.length_append, List.length_drop, List.length_cons, List.length_nil]
    simp only [CACHE_SIZE] at h2
    omega

theorem put_inv (s : CacheState) (o : Nat) (d : Option Nat) (sz : Int) (dt : Bool)
    (h : s.current.Nodup ∧ s.current.length ≤ 10) :
    (mlt_cache_put s o d sz dt).current.Nodup ∧
      (mlt_cache_put s o d sz dt).current.length ≤ 10 := by
  rw [put_current]
  exact ⟨shuffleAlt_nodup s.current o h.1, shuffleAlt_length s.current o h.2⟩

theorem applyPuts_inv (ops : List PutReq) :
    (applyPuts mlt_cache_init ops).current.Nodup ∧
      (applyPuts mlt_cache_init ops).current.length ≤ 10 := by
  suffices H : ∀ (s : CacheState), s.current.Nodup ∧ s.current.length ≤ 10 →
      (applyPuts s ops).current.Nodup ∧ (applyPuts s ops).current.length ≤ 10 by
    exact H mlt_cache_init ⟨by simp [mlt_cache_init], by simp [mlt_cache_init]⟩
  induction ops with
  | nil => intro s hs; exact hs
  | cons r t ih =>
    intro s hs
    exact ih _ (put_inv s r.object r.data r.size r.destr hs)

theorem close_closeLog (s : CacheState) (o : Nat) (d : Option Nat) :
    (cacheObjectClose s o d).closeLog = s.closeLog ++ [o] := by
  unfold cacheObjectClose closeGarbage closeActive
  repeat' split
  all_goals rfl

theorem put_full_evicts (s : CacheState) (o : Nat) (d : Option Nat) (sz : Int) (dt : Bool)
    (lru : Nat) (rest : List Nat)
    (hcur : s.current = lru :: rest) (hlen : s.current.length = 10)
    (ho : o ∉ s.current) :
    (mlt_cache_put s o d sz dt).current = rest ++ [o] ∧
    (mlt_cache_put s o d sz dt).closeLog = s.closeLog ++ [lru] := by
  have hsh : shuffleAlt s.current o = rest := by
    unfold shuffleAlt
    rw [if_neg ho, if_neg (by rw [hlen]; simp [CACHE_SIZE])]
    rw [hcur]
    rfl
  constructor
  · rw [put_current, hsh]
  · show (mlt_cache_put s o d sz dt).closeLog = s.closeLog ++ [lru]
    unfold mlt_cache_put
    dsimp only
    rw [if_neg ho, if_neg (by rw [hlen]; simp [CACHE_SIZE]), hcur]
    dsimp only
    split
    · split
      · split_ifs
        · exact close_closeLog s lru none
        · exact close_closeLog s lru none
      · exact close_closeLog s lru none
    · exact close_closeLog s lru none

end MltCache

namespace MltCache

theorem closeActive_garbage (s : CacheState) (o : Nat) :
    (closeActive s o).garbage = s.garbage := by
  unfold closeActive
  repeat' split
  all_goals rfl

theorem closeGarbage_active (s : CacheState) (d : Option Nat) :
    (closeGarbage s d).active = s.active := by
  unfold closeGarbage
  repeat' split
  all_goals rfl

theorem closeActive_log_mono (s : CacheState) (o : Nat) (x : Option Nat)
    (h : x ∈ s.destroyedLog) : x ∈ (closeActive s o).destroyedLog := by
  unfold closeActive
  repeat' split
  all_goals simp [h]

theorem closeGarbage_log_mono (s : CacheState) (d : Option Nat) (x : Option Nat)
    (h : x ∈ s.destroyedLog) : x ∈ (closeGarbage s d).destroyedLog := by
  unfold closeGarbage
  repeat' split
  all_goals simp [h]

theorem close_log_mono (s : CacheState) (o : Nat) (d : Option Nat) (x : Option Nat)
    (h : x ∈ s.destroyedLog) : x ∈ (cacheObjectClose s o d).destroyedLog := by
  unfold cacheObjectClose
  exact closeGarbage_log_mono _ _ _ (closeActive_log_mono _ _ _ h)

/-- The disjunction tracked through a purge: either the watched data value is
already in the destructor log, or the owner's active item still carries it
with a live destructor. -/
def Tracked (s : CacheState) (o : Nat) (x : Option Nat) : Prop :=
  (∃ it2, alookup s.active o = some it2 ∧ it2.data = x ∧ it2.hasDestructor = true) ∨
    x ∈ s.destroyedLog

theorem closeActive_tracked (s : CacheState) (o' o : Nat) (x : Option Nat)
    (h : Tracked s o x) : Tracked (closeActive s o') o x := by
  rcases h with ⟨it2, hl, hd, hdt⟩ | hlog
  · by_cases ho : o' = o
    · subst ho
      unfold Tracked closeActive
      rw [hl]
      dsimp only
      rw [if_pos hdt]
      split_ifs with hrc
      · right
        simp [hd]
      · left
        exact ⟨{ it2 with refcount := it2.refcount - 1 }, alookup_aset_self _ _ _,
          by simp [hd], by simp [hdt]⟩
    · unfold Tracked closeActive
      split
      · split_ifs
        · left
          exact ⟨it2, by simp [alookup_aset_ne _ _ _ _ ho, hl], hd, hdt⟩
        · left
          exact ⟨it2, by simp [alookup_aset_ne _ _ _ _ ho, hl], hd, hdt⟩
        · left
          exact ⟨it2, hl, hd, hdt⟩
      · left
        exact ⟨it2, hl, hd, hdt⟩
  · exact Or.inr (closeActive_log_mono s o' x hlog)

theorem closeGarbage_tracked (s : CacheState) (d : Option Nat) (o : Nat) (x : Option Nat)
    (h : Tracked s o x) : Tracked (closeGarbage s d) o x := by
  rcases h with ⟨it2, hl, hd, hdt⟩ | hlog
  · left
    exact ⟨it2, by rw [closeGarbage_active]; exact hl, hd, hdt⟩
  · exact Or.inr (closeGarbage_log_mono s d x hlog)

theorem close_tracked (s : CacheState) (o' : Nat) (d : Option Nat) (o : Nat) (x : Option Nat)
    (h : Tracked s o x) : Tracked (cacheObjectClose s o' d) o x := by
  unfold cacheObjectClose
  apply closeGarbage_tracked
  apply closeActive_tracked
  rcases h with ⟨it2, hl, hd, hdt⟩ | hlog
  · exact Or.inl ⟨it2, hl, hd, hdt⟩
  · exact Or.inr hlog

theorem close_none_garbage (s : CacheState) (o : Nat) :
    (cacheObjectClose s o none).garbage = s.garbage := by
  unfold cacheObjectClose closeGarbage
  rw [closeActive_garbage]

theorem purgeLoop_not_mem (o : Nat) (l : List Nat) (s : CacheState) :
    o ∉ (purgeLoop o l s).1 := by
  induction l generalizing s with
  | nil => simp [purgeLoop]
  | cons hd t ih =>
    by_cases hh : hd = o
    · simpa [purgeLoop, hh] using ih (cacheObjectClose s hd none)
    · simp only [purgeLoop, if_neg hh, List.mem_cons, not_or]
      exact ⟨fun he => hh he.symm, ih s⟩

theorem purgeLoop_tracked (o : Nat) (x : Option Nat) (l : List Nat) (s : CacheState)
    (h : Tracked s o x) : Tracked (purgeLoop o l s).2 o x := by
  induction l generalizing s with
  | nil => simpa [purgeLoop] using h
  | cons hd t ih =>
    by_cases hh : hd = o
    · simpa [purgeLoop, hh] using ih _ (close_tracked s hd none o x h)
    · simpa [purgeLoop, hh] using ih s h

theorem purgeLoop_garbage (o : Nat) (l : List Nat) (s : CacheState) :
    (purgeLoop o l s).2.garbage = s.garbage := by
  induction l generalizing s with
  | nil => simp [purgeLoop]
  | cons hd t ih =>
    by_cases hh : hd = o
    · simp only [purgeLoop, if_pos hh]
      rw [ih, close_none_garbage]
    · simpa [purgeLoop, hh] using ih s

theorem purgeActivePhase_current (s : CacheState) (o : Nat) :
    (purgeActivePhase s o).current = s.current := by
  unfold purgeActivePhase
  repeat' split
  all_goals rfl

theorem purgeActivePhase_garbage (s : CacheState) (o : Nat) :
    (purgeActivePhase s o).garbage = s.garbage := by
  unfold purgeActivePhase
  repeat' split
  all_goals rfl

theorem purgeActivePhase_tracked_done (s : CacheState) (o : Nat) (x : Option Nat)
    (h : Tracked s o x) : x ∈ (purgeActivePhase s o).destroyedLog := by
  rcases h with ⟨it2, hl, hd, hdt⟩ | hlog
  · unfold purgeActivePhase
    rw [hl]
    dsimp only
    rw [if_pos hdt]
    simp [hd]
  · unfold purgeActivePhase
    repeat' split
    all_goals simp [hlog]

theorem purgeGarbagePhase_current (s : CacheState) (o : Nat) :
    (purgeGarbagePhase s o).current = s.current := rfl

theorem purgeGarbagePhase_log_mono (s : CacheState) (o : Nat) (x : Option Nat)
    (h : x ∈ s.destroyedLog) : x ∈ (purgeGarbagePhase s o).destroyedLog := by
  unfold purgeGarbagePhase
  simp [h]

theorem purgeGarbagePhase_logs_orphans (s : CacheState) (o : Nat) (dk : Nat) (g : CacheItem)
    (hl : alookup s.garbage dk = some g) (hobj : g.object = o) (hdt : g.hasDestructor = true) :
    g.data ∈ (purgeGarbagePhase s o).destroyedLog := by
  unfold purgeGarbagePhase
  dsimp only
  rw [List.mem_append]
  right
  rw [List.mem_map]
  refine ⟨(dk, g), ?_, rfl⟩
  rw [List.mem_reverse, List.mem_filter]
  exact ⟨alookup_mem _ _ _ hl, by simp [hobj, hdt]⟩

theorem get_miss (s : CacheState) (o : Nat) (h : o ∉ s.current) :
    (mlt_cache_get s o).1 = none := by
  unfold mlt_cache_get
  rw [if_neg h]

theorem closeActive_noDestr (s : CacheState) (o : Nat) (it : CacheItem)
    (hl : alookup s.active o = some it) (hnd : it.hasDestructor = false) :
    closeActive s o = s := by
  unfold closeActive
  rw [hl]
  dsimp only
  rw [if_neg (by simp [hnd])]

theorem closeGarbage_noDestr (s : CacheState) (dk : Nat) (g : CacheItem)
    (hl : alookup s.garbage dk = some g) (hnd : g.hasDestructor = false) :
    closeGarbage s (some dk) = s := by
  unfold closeGarbage
  dsimp only
  rw [hl]
  dsimp only
  rw [if_neg (by simp [hnd])]

end MltCache

namespace MltFrame

theorem storedOrSilence_position (f0 : Frame) (a b c d : Int) :
    (storedOrSilence f0 a b c d).frame.position = f0.position := by
  unfold storedOrSilence
  cases f0.sound <;> rfl

theorem audioEpilogue_position (r : GAResult) :
    (audioEpilogue r).frame.position = r.frame.position := by
  unfold audioEpilogue
  dsimp only
  cases h : r.frame.metaVolume <;> simp [h]

theorem ratTrunc_intCast (n : Int) : ratTrunc ((n : Int) : ℚ) = n := by
  unfold ratTrunc
  split_ifs <;> simp

theorem wrap16_eq_self (x : Int) (h1 : -32768 ≤ x) (h2 : x ≤ 32767) : wrap16 x = x := by
  unfold wrap16
  omega

theorem idx_div (j i cd : Nat) (h : j < cd) : (i * cd + j) / cd = i := by
  rw [Nat.mul_comm, Nat.mul_add_div (by omega), Nat.div_eq_of_lt h, Nat.add_zero]

theorem idx_mod (j i cd : Nat) (h : j < cd) : (i * cd + j) % cd = j := by
  rw [Nat.mul_comm, Nat.mul_add_mod, Nat.mod_eq_of_lt h]

theorem mix_loop_getD (dest src : List Int) (cd cs n ch : Nat) (ws we : ℚ)
    (k : Nat) (hk : k < dest.length) :
    (mlt_frame_mix_audio_loop dest src cd cs n ch ws we).getD k 0 =
      (if k / cd < n ∧ k % cd < ch then
        wrap16 (ratTrunc ((src.getD (k / cd * cs + k % cd) 0 : ℚ) *
            (ws + ((k / cd : Nat) : ℚ) * ((we - ws) / (n : ℚ)))
          + (dest.getD k 0 : ℚ) * (1 - (ws + ((k / cd : Nat) : ℚ) * ((we - ws) / (n : ℚ))))))
      else dest.getD k 0) := by
  unfold mlt_frame_mix_audio_loop
  rw [List.getD_eq_getElem _ 0 (by simpa using hk)]
  rw [List.getElem_map, List.getElem_range]

theorem mix_loop_length (dest src : List Int) (cd cs n ch : Nat) (ws we : ℚ) :
    (mlt_frame_mix_audio_loop dest src cd cs n ch ws we).length = dest.length := by
  unfold mlt_frame_mix_audio_loop
  simp

theorem get_image_pop (f : Frame) (fmt w h wr : Int) (step : GetImageStep)
    (rest : List GetImageStep) (hs : f.stackImage = step :: rest) :
    (mlt_frame_get_image f fmt w h wr).frame.stackImage = rest ∧
    (mlt_frame_get_image f fmt w h wr).frame.invokeCount = f.invokeCount + 1 := by
  unfold mlt_frame_get_image
  rw [hs]
  dsimp only
  exact ⟨rfl, rfl⟩

theorem get_image_memoized (g : Frame) (fmt w h wr : Int) (b : List Nat)
    (hs : g.stackImage = []) (hi : g.image = some b) :
    (mlt_frame_get_image g fmt w h wr).buffer = some b ∧
    (mlt_frame_get_image g fmt w h wr).frame.invokeCount = g.invokeCount := by
  unfold mlt_frame_get_image
  rw [hs]
  dsimp only
  rw [hi]
  dsimp only
  exact ⟨rfl, rfl⟩

theorem get_alpha_mask_fields (f : Frame) :
    (mlt_frame_get_alpha_mask f).2.width = f.width ∧
    (mlt_frame_get_alpha_mask f).2.height = f.height ∧
    (mlt_frame_get_alpha_mask f).2.image = f.image := by
  unfold mlt_frame_get_alpha_mask
  cases hg : f.alphaGen with
  | some a => exact ⟨rfl, rfl, rfl⟩
  | none =>
    dsimp only
    cases hm : f.alphaMask <;> exact ⟨rfl, rfl, rfl⟩

theorem resize_noop (out inp : List Nat) (ow oh iw ih : Int)
    (hg : ow ≤ 6 ∨ oh ≤ 6 ∨ iw ≤ 6) :
    mlt_resize_yuv422 (some out) ow oh (some inp) iw ih = some out := by
  unfold mlt_resize_yuv422
  dsimp only
  rw [if_pos (show ow ≤ 6 ∨ oh ≤ 6 ∨ iw ≤ 6 ∨ oh ≤ 6 by tauto)]

theorem calc44100_cast (n : Nat) :
    mlt_sample_calculator ntscFps 44100 (n : Int) = ntscTable n := by
  have hg : ⌊ntscFps * 100⌋ = (2997 : Int) := by norm_num [ntscFps]
  have t300 : Int.tmod (n : Int) 300 = ((n % 300 : Nat) : Int) := by
    simpa using (Int.ofNat_tmod n 300).symm
  have t30 : Int.tmod (n : Int) 30 = ((n % 30 : Nat) : Int) := by
    simpa using (Int.ofNat_tmod n 30).symm
  have t2 : Int.tmod (n : Int) 2 = ((n % 2 : Nat) : Int) := by
    simpa using (Int.ofNat_tmod n 2).symm
  unfold mlt_sample_calculator ntscTable
  dsimp only
  rw [hg, t300, t30, t2]
  split_ifs <;> omega

theorem ntscWindowSum_eq_table (p : Nat) :
    ntscWindowSum p = ((List.range 300).map fun i => ntscTable (p + i)).sum := by
  unfold ntscWindowSum
  congr 1
  apply List.map_congr_left
  intro i _
  have h : (p : Int) + (i : Int) = ((p + i : Nat) : Int) := by push_cast; ring
  rw [h, calc44100_cast]

theorem tableSum_succ (p : Nat) :
    ((List.range 300).map fun i => ntscTable (p + 1 + i)).sum =
      ((List.range 300).map fun i => ntscTable (p + i)).sum := by
  have h1 : ((List.range (300 + 1)).map fun i => ntscTable (p + i)).sum =
      ((List.range 300).map fun i => ntscTable (p + i)).sum + ntscTable (p + 300) := by
    rw [List.range_succ, List.map_append, List.sum_append,
      List.map_cons, List.map_nil, List.sum_cons, List.sum_nil, add_zero]
  have h2 : ((List.range (300 + 1)).map fun i => ntscTable (p + i)).sum =
      ntscTable p + ((List.range 300).map fun i => ntscTable (p + 1 + i)).sum := by
    rw [List.range_succ_eq_map, List.map_cons, List.sum_cons, List.map_map]
    have e0 : ntscTable (p + 0) = ntscTable p := by rw [Nat.add_zero]
    have emap : List.map ((fun i => ntscTable (p + i)) ∘ Nat.succ) (List.range 300) =
        List.map (fun i => ntscTable (p + 1 + i)) (List.range 300) := by
      apply List.map_congr_left
      intro i _
      simp only [Function.comp_apply]
      congr 1
      omega
    rw [e0, emap]
  have hper : ntscTable (p + 300) = ntscTable p := by
    unfold ntscTable
    have e300 : (p + 300) % 300 = p % 300 := by omega
    have e30 : (p + 300) % 30 = p % 30 := by omega
    have e2 : (p + 300) % 2 = p % 2 := by omega
    rw [e300, e30, e2]
  rw [hper] at h1
  omega

set_option maxHeartbeats 1000000 in
set_option maxRecDepth 10000 in
theorem tableSum_base : ((List.range 300).map fun i => ntscTable (0 + i)).sum = 441431 := by
  decide

end MltFrame

open MltCache MltCases in
/-- Claim C1 (code bug): after `put(owner, dataA)`, `get(owner)` and
`put(owner, dataB)`, dataA is indeed not destroyed immediately, but releasing
both references does not fire dataA's destructor at all: the get handle
aliases the mutated active item, so `item_close` passes dataB's address —
dataB is destroyed while the cache still holds it, and dataA stays stranded
in the garbage list at refcount 1.  This theorem evaluates the embedded cache
on the failing trace. -/
theorem c1_orphan_code_bug :
    c1afterPutB.destroyedLog = [] ∧
    c1afterClose.closeLog = [1, 1] ∧
    c1afterClose.destroyedLog = [some 200] ∧
    some 100 ∉ c1afterClose.destroyedLog ∧
    alookup c1afterClose.garbage 100 =
      some { object := 1, data := some 100, size := 0, refcount := 1,
             hasDestructor := true } := by
  decide

open MltFrame in
/-- Claim C2 (counterexample): at starting position 0 the sum of
`mlt_sample_calculator(29.97, 44100, ·)` over 300 consecutive positions is
441431, not the claimed 441441 (= 300 × 44100 / 29.97 rounded). -/
theorem c2_counterexample :
    ntscWindowSum 0 = 441431 ∧ (441431 : Int) ≠ 441441 := by
  constructor
  · rw [ntscWindowSum_eq_table]
    exact tableSum_base
  · decide

open MltFrame in
/-- Claim C2 (amended): for every starting position p ≥ 0, the sum of
`mlt_sample_calculator(29.97, 44100, ·)` over the 300 consecutive positions
p .. p+299 is the constant 441431 — there is no cumulative drift across
windows, but the constant falls 10 samples short of 300 × 44100 / 29.97
rounded to the nearest integer (441441). -/
theorem c2_window_sum_constant (p : Nat) : ntscWindowSum p = 441431 := by
  induction p with
  | zero =>
    rw [ntscWindowSum_eq_table]
    exact tableSum_base
  | succ n ih =>
    rw [ntscWindowSum_eq_table] at ih ⊢
    rw [tableSum_succ]
    exact ih

open MltFrame MltCases in
/-- Claim C3 (counterexample): a frame with one deferred step that reports a
buffer without storing it in the `"image"` property resolves to that buffer
once, but the second resolve with identical parameters returns a freshly
synthesized placeholder, not the first buffer — `mlt_frame_get_image` never
memoizes a step's result itself.  (Each step is still invoked at most once:
the invocation count stays at 1.) -/
theorem c3_counterexample :
    c3First.buffer = some [1, 2, 3] ∧
    c3Second.buffer ≠ c3First.buffer ∧
    c3First.frame.invokeCount = 1 ∧ c3Second.frame.invokeCount = 1 := by
  refine ⟨rfl, by decide, rfl, rfl⟩

open MltFrame in
/-- Claim C3 (amended): resolving a frame's image pops the deferred step off
the stack, so a given step is invoked at most once (the invocation count
rises by exactly one and the step is gone); and when the first resolve leaves
the stack empty with the `"image"` property set — which happens exactly when
the step itself stored its buffer, the placeholder path ran, or an image was
already stored — the second resolve with identical parameters returns that
stored buffer without invoking any step. -/
theorem c3_memoization_amended (f : Frame) (fmt w h wr : Int) (step : GetImageStep)
    (rest : List GetImageStep) (hs : f.stackImage = step :: rest) :
    (mlt_frame_get_image f fmt w h wr).frame.stackImage = rest ∧
    (mlt_frame_get_image f fmt w h wr).frame.invokeCount = f.invokeCount + 1 ∧
    (∀ b, (mlt_frame_get_image f fmt w h wr).frame.stackImage = [] →
      (mlt_frame_get_image f fmt w h wr).frame.image = some b →
      (mlt_frame_get_image (mlt_frame_get_image f fmt w h wr).frame fmt w h wr).buffer =
        some b ∧
      (mlt_frame_get_image (mlt_frame_get_image f fmt w h wr).frame fmt w h wr).frame.invokeCount =
        (mlt_frame_get_image f fmt w h wr).frame.invokeCount) := by
  obtain ⟨h1, h2⟩ := get_image_pop f fmt w h wr step rest hs
  refine ⟨h1, h2, ?_⟩
  intro b hempty himg
  exact get_image_memoized _ fmt w h wr b hempty himg

open MltFrame MltCases in
/-- Witness for the amended claim C3, at a concrete frame whose single step
stores its buffer: the second resolve returns the stored buffer and invokes
no step. -/
theorem c3_memoization_witness :
    (mlt_frame_get_image (mlt_frame_get_image c3wFrame 3 1 1 0).frame 3 1 1 0).buffer =
      some [9, 8] ∧
    (mlt_frame_get_image (mlt_frame_get_image c3wFrame 3 1 1 0).frame 3 1 1 0).frame.invokeCount =
      (mlt_frame_get_image c3wFrame 3 1 1 0).frame.invokeCount := by
  exact (c3_memoization_amended c3wFrame 3 1 1 0 c3wStep [] rfl).2.2 [9, 8] rfl rfl

open MltCache in
/-- Claim C4: after any sequence of `mlt_cache_put` calls on a fresh cache the
LRU ordering holds at most 10 distinct owners; and a `put` of a new owner
into a full cache passes exactly the least-recently-used owner (the head of
the ordering) to the release path (`cache_object_close`) and removes it from
the ordering, appending the new owner at the most-recently-used end. -/
theorem c4_capacity_lru (ops : List PutReq) :
    (applyPuts mlt_cache_init ops).current.length ≤ 10 ∧
    (∀ (o : Nat) (d : Option Nat) (sz : Int) (dt : Bool) (lru : Nat) (rest : List Nat),
      (applyPuts mlt_cache_init ops).current = lru :: rest →
      (applyPuts mlt_cache_init ops).current.length = 10 →
      o ∉ (applyPuts mlt_cache_init ops).current →
      (mlt_cache_put (applyPuts mlt_cache_init ops) o d sz dt).current = rest ++ [o] ∧
      lru ∉ (mlt_cache_put (applyPuts mlt_cache_init ops) o d sz dt).current ∧
      (mlt_cache_put (applyPuts mlt_cache_init ops) o d sz dt).closeLog =
        (applyPuts mlt_cache_init ops).closeLog ++ [lru]) := by
  obtain ⟨hnd, hlen⟩ := applyPuts_inv ops
  refine ⟨hlen, ?_⟩
  intro o d sz dt lru rest hcur hl ho
  obtain ⟨hc1, hc2⟩ :=
    put_full_evicts (applyPuts mlt_cache_init ops) o d sz dt lru rest hcur hl ho
  refine ⟨hc1, ?_, hc2⟩
  rw [hc1]
  rw [hcur] at hnd
  rw [List.nodup_cons] at hnd
  have hlo : lru ≠ o := by
    intro he
    apply ho
    rw [hcur, he]
    simp
  simp only [List.mem_append, List.mem_cons, List.mem_singleton]
  rintro (hr | he)
  · exact hnd.1 hr
  · simp at he
    exact hlo he

open MltCache MltCases in
/-- Witness for claim C4: ten puts of owners 1..10 fill the cache; an 11th
distinct owner evicts owner 1 (the LRU end), closing it and appending 11 at
the MRU end. -/
theorem c4_capacity_lru_witness :
    (applyPuts mlt_cache_init c4ops).current.length ≤ 10 ∧
    (mlt_cache_put (applyPuts mlt_cache_init c4ops) 11 (some 111) 0 true).current =
      [2, 3, 4, 5, 6, 7, 8, 9, 10, 11] ∧
    1 ∉ (mlt_cache_put (applyPuts mlt_cache_init c4ops) 11 (some 111) 0 true).current ∧
    (mlt_cache_put (applyPuts mlt_cache_init c4ops) 11 (some 111) 0 true).closeLog =
      (applyPuts mlt_cache_init c4ops).closeLog ++ [1] := by
  obtain ⟨h1, h2⟩ := c4_capacity_lru c4ops
  obtain ⟨ha, hb, hc⟩ := h2 11 (some 111) 0 true 1 [2, 3, 4, 5, 6, 7, 8, 9, 10]
    (by decide) (by decide) (by decide)
  exact ⟨h1, by rw [ha]; rfl, hb, hc⟩

open MltFrame in
/-- Claim C5 (counterexample): with the default `b_weight = 1` and two input
samples of 16384, the additive sum is 32768 and survives the clamp unchanged
— outside the 16-bit signed range, because the code clamps to
`[-32767, 32768]`, not `[-32768, 32767]`. -/
theorem c5_counterexample :
    combine_clamp (combine_sum 1 16384 16384) = 32768 ∧
      ¬ combine_clamp (combine_sum 1 16384 16384) ≤ 32767 := by
  norm_num [combine_clamp, combine_sum]

open MltFrame in
/-- Claim C5 (amended): for every weight and pair of input samples, the
intermediate additive sum computed by `mlt_frame_combine_audio` is clamped
into the asymmetric range [-32767, 32768] (one above the top of the int16
range) before the one-pole low-pass filter is applied. -/
theorem c5_clamp_amended (b_weight : ℚ) (d s : Int) :
    -32767 ≤ combine_clamp (combine_sum b_weight d s) ∧
      combine_clamp (combine_sum b_weight d s) ≤ 32768 := by
  unfold combine_clamp
  split_ifs with h1 h2
  · norm_num
  · norm_num
  · constructor <;> linarith

open MltFrame MltCases in
/-- Claim C6 (counterexample): requesting a 4 × 4 resize of a 10 × 10 frame is
below the 6-pixel threshold, yet `mlt_frame_resize_yuv422` is not a no-op: it
returns the freshly allocated (never written) 40-byte buffer, not the input
image, and replaces the frame's stored image and dimensions. -/
theorem c6_counterexample :
    (mlt_frame_resize_yuv422 c6Frame 4 4).1 ≠ c6Frame.image ∧
    (mlt_frame_resize_yuv422 c6Frame 4 4).2.width = 4 ∧
    c6Frame.width = 10 ∧
    (mlt_frame_resize_yuv422 c6Frame 4 4).2.image ≠ c6Frame.image ∧
    (mlt_frame_resize_yuv422 c6Frame 4 4).1 = some (List.replicate 40 0) := by
  refine ⟨by decide, rfl, rfl, by decide, by decide⟩

open MltFrame in
/-- Claim C6 (amended): the low-level `mlt_resize_yuv422` treats a request
with output width ≤ 6, output height ≤ 6 or input width ≤ 6 as a no-op on the
output buffer rather than an error (input height is never checked); but
whenever the requested dimensions differ from the frame's,
`mlt_frame_resize_yuv422` still installs a fresh buffer as the frame's image
with the new width and height and returns it — under the threshold that
buffer is the unwritten allocation of `owidth * (oheight + 1) * 2` bytes, not
the input image. -/
theorem c6_degenerate_amended :
    (∀ (out inp : List Nat) (ow oh iw ih : Int), ow ≤ 6 ∨ oh ≤ 6 ∨ iw ≤ 6 →
      mlt_resize_yuv422 (some out) ow oh (some inp) iw ih = some out) ∧
    (∀ (f : Frame) (ow oh : Int), f.width ≠ ow ∨ f.height ≠ oh →
      (mlt_frame_resize_yuv422 f ow oh).2.width = ow ∧
      (mlt_frame_resize_yuv422 f ow oh).2.height = oh ∧
      (mlt_frame_resize_yuv422 f ow oh).2.image = (mlt_frame_resize_yuv422 f ow oh).1 ∧
      ((ow ≤ 6 ∨ oh ≤ 6 ∨ f.width ≤ 6) →
        (mlt_frame_resize_yuv422 f ow oh).1 =
          some (List.replicate (ow * (oh + 1) * 2).toNat 0))) := by
  refine ⟨resize_noop, ?_⟩
  intro f ow oh hdiff
  obtain ⟨hw, hh, hi⟩ := get_alpha_mask_fields f
  have hcond : (mlt_frame_get_alpha_mask f).2.width ≠ ow ∨
      (mlt_frame_get_alpha_mask f).2.height ≠ oh := by
    rw [hw, hh]
    exact hdiff
  unfold mlt_frame_resize_yuv422
  dsimp only
  rw [if_pos hcond]
  refine ⟨?_, ?_, ?_, ?_⟩
  · split <;> rfl
  · split <;> rfl
  · split <;> rfl
  · intro hg
    have hval : mlt_resize_yuv422 (some (List.replicate (ow * (oh + 1) * 2).toNat 0)) ow oh
        f.image (mlt_frame_get_alpha_mask f).2.width
        (mlt_frame_get_alpha_mask f).2.height =
        some (List.replicate (ow * (oh + 1) * 2).toNat 0) := by
      rw [hw, hh]
      cases himg : f.image with
      | none => rfl
      | some inp => exact resize_noop _ inp ow oh f.width f.height hg
    split <;> exact hval

open MltFrame MltCases in
/-- Witness for the amended claim C6 at concrete inputs: a 4 × 4 request
leaves the low-level output buffer untouched, and the frame-level wrapper
sets the new width and returns the unwritten 40-byte allocation. -/
theorem c6_degenerate_witness :
    mlt_resize_yuv422 (some [5, 5]) 4 4 (some [1, 2, 3, 4]) 10 10 = some [5, 5] ∧
    (mlt_frame_resize_yuv422 c6Frame 4 4).2.width = 4 ∧
    (mlt_frame_resize_yuv422 c6Frame 4 4).1 = some (List.replicate 40 0) := by
  obtain ⟨p1, p2⟩ := c6_degenerate_amended
  refine ⟨p1 [5, 5] [1, 2, 3, 4] 4 4 10 10 (by norm_num), ?_, ?_⟩
  · exact (p2 c6Frame 4 4 (by decide)).1
  · have hx := (p2 c6Frame 4 4 (by decide)).2.2.2 (by norm_num)
    simpa using hx

open MltCache in
/-- Claim C7: for every cache state and non-null owner, `mlt_cache_purge`
removes the owner from the LRU ordering (so a subsequent `mlt_cache_get`
misses), and the destructor is invoked — regardless of outstanding refcounts
— on the owner's active entry and on every orphaned entry still tagged with
the owner. -/
theorem c7_purge_unconditional (s : CacheState) (o : Nat) (ho : o ≠ 0) :
    o ∉ (mlt_cache_purge s o).current ∧
    (mlt_cache_get (mlt_cache_purge s o) o).1 = none ∧
    (∀ it, alookup s.active o = some it → it.hasDestructor = true →
      it.data ∈ (mlt_cache_purge s o).destroyedLog) ∧
    (∀ dk g, alookup s.garbage dk = some g → g.object = o → g.hasDestructor = true →
      g.data ∈ (mlt_cache_purge s o).destroyedLog) := by
  have hcur : (mlt_cache_purge s o).current = (purgeLoop o s.current s).1 := by
    unfold mlt_cache_purge
    rw [if_neg ho]
    rw [purgeGarbagePhase_current, purgeActivePhase_current]
  have hnm : o ∉ (mlt_cache_purge s o).current := by
    rw [hcur]
    exact purgeLoop_not_mem o s.current s
  refine ⟨hnm, get_miss _ _ hnm, ?_, ?_⟩
  · intro it hl hdt
    have h0 : Tracked s o it.data := Or.inl ⟨it, hl, rfl, hdt⟩
    have h1 : Tracked (purgeLoop o s.current s).2 o it.data :=
      purgeLoop_tracked o it.data s.current s h0
    have h2 : Tracked { (purgeLoop o s.current s).2 with
        current := (purgeLoop o s.current s).1 } o it.data := h1
    unfold mlt_cache_purge
    rw [if_neg ho]
    exact purgeGarbagePhase_log_mono _ _ _ (purgeActivePhase_tracked_done _ _ _ h2)
  · intro dk g hl hobj hdt
    have hg2 : alookup (purgeActivePhase { (purgeLoop o s.current s).2 with
        current := (purgeLoop o s.current s).1 } o).garbage dk = some g := by
      rw [purgeActivePhase_garbage]
      show alookup (purgeLoop o s.current s).2.garbage dk = some g
      rw [purgeLoop_garbage]
      exact hl
    unfold mlt_cache_purge
    rw [if_neg ho]
    exact purgeGarbagePhase_logs_orphans _ o dk g hg2 hobj hdt

open MltCache MltCases in
/-- Witness for claim C7 at a concrete cache: purging owner 1 destroys the
active data 100 (refcount 3) and the orphaned data 150 (refcount 2), removes
the owner from the ordering, and a subsequent get misses. -/
theorem c7_purge_witness :
    1 ∉ (mlt_cache_purge c7State 1).current ∧
    (mlt_cache_get (mlt_cache_purge c7State 1) 1).1 = none ∧
    some 100 ∈ (mlt_cache_purge c7State 1).destroyedLog ∧
    some 150 ∈ (mlt_cache_purge c7State 1).destroyedLog := by
  obtain ⟨h1, h2, h3, h4⟩ := c7_purge_unconditional c7State 1 (by decide)
  refine ⟨h1, h2, ?_, ?_⟩
  · exact h3 { object := 1, data := some 100, size := 0, refcount := 3, hasDestructor := true }
      (by decide) (by decide)
  · exact h4 150 { object := 1, data := some 150, size := 0, refcount := 2, hasDestructor := true }
      (by decide) (by decide) (by decide)

open MltFrame in
/-- Claim C8: with both buffers distinct and their channel and sample counts
within the defensive bounds (≤ 6 channels, ≤ 4000 samples),
`mlt_frame_mix_audio` with `weight_start = weight_end = 1` writes exactly the
corresponding source sample into every mixed destination cell, and with
`weight_start = weight_end = 0` it returns the destination buffer entirely
unchanged. -/
theorem c8_mix_boundary (dest src : List Int) (fd fs : Int) (cd cs nd ns : Int)
    (hcd : 0 ≤ cd ∧ cd ≤ 6) (hcs : 0 ≤ cs ∧ cs ≤ 6)
    (hnd : 0 ≤ nd ∧ nd ≤ 4000) (hns : 0 ≤ ns ∧ ns ≤ 4000)
    (hsrc : ∀ x ∈ src, -32768 ≤ x ∧ x ≤ 32767)
    (hdest : ∀ x ∈ dest, -32768 ≤ x ∧ x ≤ 32767) :
    (∀ i j : Nat, (i : Int) < min ns nd → (j : Int) < min cs cd →
        i * cd.toNat + j < dest.length → i * cs.toNat + j < src.length →
        (mlt_frame_mix_audio dest src fd fs cd cs nd ns 1 1 false false false).buffer.getD
            (i * cd.toNat + j) 0 = src.getD (i * cs.toNat + j) 0) ∧
    (mlt_frame_mix_audio dest src fd fs cd cs nd ns 0 0 false false false).buffer = dest := by
  constructor
  · intro i j hi hj hkd hks
    have hjcd : j < cd.toNat := by omega
    have hjcs : j < cs.toNat := by omega
    unfold mlt_frame_mix_audio
    simp only [if_neg (by omega : ¬ cd > 6), if_neg (by omega : ¬ cs > 6),
      if_neg (by omega : ¬ nd > 4000), if_neg (by omega : ¬ ns > 4000),
      if_neg Bool.false_ne_true]
    rw [mix_loop_getD _ _ _ _ _ _ _ _ _ hkd]
    rw [idx_div j i cd.toNat hjcd, idx_mod j i cd.toNat hjcd]
    rw [if_pos (by constructor <;> omega)]
    have hs := hsrc (src.getD (i * cs.toNat + j) 0) (by
      rw [List.getD_eq_getElem _ 0 hks]
      exact List.getElem_mem hks)
    have hw : (1 : ℚ) + (i : ℚ) * (((1 : ℚ) - 1) / (((min ns nd).toNat : Nat) : ℚ)) = 1 := by
      ring
    rw [hw, mul_one, sub_self, mul_zero, add_zero, ratTrunc_intCast,
      wrap16_eq_self _ hs.1 hs.2]
  · unfold mlt_frame_mix_audio
    simp only [if_neg (by omega : ¬ cd > 6), if_neg (by omega : ¬ cs > 6),
      if_neg (by omega : ¬ nd > 4000), if_neg (by omega : ¬ ns > 4000),
      if_neg Bool.false_ne_true]
    apply List.ext_getElem
    · rw [mix_loop_length]
    intro k h1 h2
    have hk : k < dest.length := h2
    have hpt := mix_loop_getD dest src cd.toNat cs.toNat (min ns nd).toNat
      (min cs cd).toNat 0 0 k hk
    rw [List.getD_eq_getElem _ 0 h1] at hpt
    rw [hpt]
    split_ifs with hcase
    · have hd := hdest dest[k] (List.getElem_mem h2)
      have hw0 : (0 : ℚ) + ((k / cd.toNat : Nat) : ℚ) *
          (((0 : ℚ) - 0) / (((min ns nd).toNat : Nat) : ℚ)) = 0 := by
        ring
      rw [hw0, mul_zero, zero_add, sub_zero, mul_one, List.getD_eq_getElem _ 0 h2,
        ratTrunc_intCast, wrap16_eq_self _ hd.1 hd.2]
    · rw [List.getD_eq_getElem _ 0 h2]

open MltFrame in
/-- Witness for claim C8 at concrete one-channel, two-sample buffers: mixing
with weights 1/1 replaces the first destination sample by the source sample,
and with weights 0/0 returns the destination unchanged. -/
theorem c8_mix_boundary_witness :
    (mlt_frame_mix_audio [100, -200] [5, 6] 48000 48000 1 1 2 2 1 1
        false false false).buffer.getD 0 0 = 5 ∧
    (mlt_frame_mix_audio [100, -200] [5, 6] 48000 48000 1 1 2 2 0 0
        false false false).buffer = [100, -200] := by
  obtain ⟨h1, h2⟩ := c8_mix_boundary [100, -200] [5, 6] 48000 48000 1 1 2 2
    (by norm_num) (by norm_num) (by norm_num) (by norm_num)
    (by intro x hx; fin_cases hx <;> norm_num)
    (by intro x hx; fin_cases hx <;> norm_num)
  exact ⟨h1 0 0 (by norm_num) (by norm_num) (by norm_num) (by norm_num), h2⟩

open MltFrame in
/-- Claim C9: resolving a frame's image or audio never changes the position
the frame reports — both `mlt_frame_get_image` and `mlt_frame_get_audio` read
`"_position"` before invoking a popped deferred step and write it back
afterwards, so `mlt_frame_get_position` gives the same value after resolution
as before, even when the step modified the position. -/
theorem c9_position_preserved (f : Frame) (fmt w h writable fmtA freq ch ns : Int) :
    mlt_frame_get_position (mlt_frame_get_image f fmt w h writable).frame =
      mlt_frame_get_position f ∧
    mlt_frame_get_position (mlt_frame_get_audio f fmtA freq ch ns).frame =
      mlt_frame_get_position f := by
  obtain ⟨pos, img, wid, hei, fm, asp, sw, sh, ti, ic, stk, tcp, am, ag, ra,
    snd, sf, sc, ss, taf, stka, mv, ivc⟩ := f
  constructor
  · cases stk with
    | cons step rest =>
      simp only [mlt_frame_get_image, mlt_frame_get_position]
      split_ifs <;> omega
    | nil =>
      cases img with
      | some b => simp [mlt_frame_get_image, mlt_frame_get_position]
      | none =>
        cases tcp with
        | none => simp [mlt_frame_get_image, placeholderImage, mlt_frame_get_position]
        | some pr =>
          cases pr with
          | none => simp [mlt_frame_get_image, placeholderImage, mlt_frame_get_position]
          | some r => simp [mlt_frame_get_image, mlt_frame_get_position]
  · cases stka with
    | cons step rest =>
      cases taf with
      | false =>
        simp [mlt_frame_get_audio, mlt_frame_get_position, audioEpilogue_position]
        split_ifs <;> omega
      | true =>
        simp [mlt_frame_get_audio, mlt_frame_get_position, audioEpilogue_position,
          storedOrSilence_position]
    | nil =>
      simp [mlt_frame_get_audio, mlt_frame_get_position, audioEpilogue_position,
        storedOrSilence_position]

open MltCache in
/-- Claim C10: a cache entry whose destructor capability is null is left
entirely unchanged by `cache_object_close` (the body of
`mlt_cache_item_close`) — in particular its refcount is not decremented and
no destructor is invoked on it; this holds for the active entry looked up by
owner and for the orphaned entry looked up by data address. -/
theorem c10_null_destructor_close (s : CacheState) (o : Nat) (d : Option Nat)
    (it : CacheItem) (hl : alookup s.active o = some it)
    (hnd : it.hasDestructor = false) :
    alookup (cacheObjectClose s o d).active o = some it ∧
    (∀ dk g, d = some dk → alookup s.garbage dk = some g → g.hasDestructor = false →
      alookup (cacheObjectClose s o d).garbage dk = some g ∧
      (cacheObjectClose s o d).destroyedLog = s.destroyedLog) := by
  have hca : closeActive { s with closeLog := s.closeLog ++ [o] } o =
      { s with closeLog := s.closeLog ++ [o] } :=
    closeActive_noDestr _ o it hl hnd
  constructor
  · unfold cacheObjectClose
    rw [closeGarbage_active, hca]
    exact hl
  · intro dk g hd hgl hgnd
    subst hd
    unfold cacheObjectClose
    rw [hca, closeGarbage_noDestr { s with closeLog := s.closeLog ++ [o] } dk g hgl hgnd]
    exact ⟨hgl, rfl⟩

open MltCache MltCases in
/-- Witness for claim C10 at a concrete cache whose active item (refcount 2)
and orphaned item (refcount 1) both lack destructors: a close leaves both
entries, including their refcounts, untouched and destroys nothing. -/
theorem c10_null_destructor_witness :
    alookup (cacheObjectClose c10State 1 (some 300)).active 1 =
      some { object := 1, data := some 100, size := 0, refcount := 2,
             hasDestructor := false } ∧
    alookup (cacheObjectClose c10State 1 (some 300)).garbage 300 =
      some { object := 1, data := some 300, size := 0, refcount := 1,
             hasDestructor := false } ∧
    (cacheObjectClose c10State 1 (some 300)).destroyedLog = [] := by
  obtain ⟨h1, h2⟩ := c10_null_destructor_close c10State 1 (some 300)
    { object := 1, data := some 100, size := 0, refcount := 2, hasDestructor := false }
    (by decide) (by decide)
  obtain ⟨h3, h4⟩ := h2 300
    { object := 1, data := some 300, size := 0, refcount := 1, hasDestructor := false }
    rfl (by decide) (by decide)
  exact ⟨h1, h3, by rw [h4]; rfl⟩
